import Mathlib

/-!
# Verification of the cardiff statsd clone

Shallow embedding of `cardiff/controller.py` and `cardiff/backends/base.py`
(and the payload shape produced by `cardiff/backends/upstream.py`), together
with proofs and refutations of the specified behaviours.

Modelling conventions:
* Python `dict`s are association lists without duplicate keys; item assignment
  replaces in place, `del` removes the first (only) binding.
* Python numbers (ints and floats) are modelled as `ℚ`; counters that are
  only ever integers are modelled as `ℤ`.
* Wall-clock durations computed from `time.time()` are ambient inputs,
  passed as explicit `ℚ` parameters.
* A Python exception is an explicit `PyErr` value; stateful operations
  return the state reached at the moment of the raise alongside the error,
  since mutations made before the raise persist.
-/

/-- Python exceptions raised by the embedded code paths. -/
inductive PyErr where
  | keyError
  | valueError
  | typeError
  | indexError
deriving DecidableEq, Repr

/-! ## Dictionary operations (Python `dict` on association lists) -/

/-- `d[k]` as an option: the first binding of `k`. -/
def dlookup {α : Type} : List (String × α) → String → Option α
  | [], _ => none
  | (k2, v) :: rest, k => if k2 = k then some v else dlookup rest k

/-- `d[k] = v`: replace the binding in place, or append a fresh one. -/
def dset {α : Type} : List (String × α) → String → α → List (String × α)
  | [], k, v => [(k, v)]
  | (k2, v2) :: rest, k, v =>
      if k2 = k then (k, v) :: rest else (k2, v2) :: dset rest k v

/-- `del d[k]`: remove the first binding of `k`. -/
def eraseKey {α : Type} : List (String × α) → String → List (String × α)
  | [], _ => []
  | (k2, v2) :: rest, k => if k2 = k then rest else (k2, v2) :: eraseKey rest k

/-- `k in d` (membership among the keys). -/
def containsKey {α : Type} (d : List (String × α)) (k : String) : Bool :=
  (dlookup d k).isSome

/-! ## A miniature Python 2 regex engine

`controller.py` compiles five patterns.  All of them are JavaScript-style
regex literals (`/.../` or `/.../g`) accidentally used as Python pattern
strings, so the leading `/` is a literal character and the flags are
pattern text.  Only the constructs those five patterns use are modelled:
literal characters, the `^` assertion, character classes, and a greedy
`+` over a character class. -/

/-- One atom of a compiled pattern. -/
inductive RAtom where
  /-- a literal character -/
  | lit (c : Char)
  /-- `^`: matches at the start of the subject only (no MULTILINE flag) -/
  | startAnchor
  /-- a character class, one character -/
  | cls (p : Char → Bool)
  /-- a character class under a greedy `+` (one or more characters) -/
  | plusCls (p : Char → Bool)

/-- Greedy backtracking for `plusCls`: try consuming `k, k-1, …, 1`
characters of `s` (all already known to be in the class) before matching
the rest of the pattern via `f` on the remaining suffix. -/
def tryLens (f : List Char → Option Nat) (s : List Char) : Nat → Option Nat
  | 0 => none
  | k + 1 =>
      match f (s.drop (k + 1)) with
      | some n => some (n + k + 1)
      | none => tryLens f s k

/-- Match a pattern against `s` at the current position, returning the
number of characters consumed.  `atStart` records whether the current
position is the start of the subject (for `^`). -/
def rmatchLen : List RAtom → List Char → Bool → Option Nat
  | [], _, _ => some 0
  | .startAnchor :: rest, s, atStart =>
      if atStart then rmatchLen rest s atStart else none
  | .lit c :: rest, s, _ =>
      match s with
      | c2 :: s2 => if c2 = c then (rmatchLen rest s2 false).map (· + 1) else none
      | [] => none
  | .cls p :: rest, s, _ =>
      match s with
      | c2 :: s2 => if p c2 then (rmatchLen rest s2 false).map (· + 1) else none
      | [] => none
  | .plusCls p :: rest, s, _ =>
      tryLens (fun s2 => rmatchLen rest s2 false) s (s.takeWhile p).length

/-- `re.match(pattern, s)` as a boolean: match anchored at the start. -/
def pyMatch (p : List RAtom) (s : String) : Bool :=
  (rmatchLen p s.data true).isSome

/-- One pass of `pattern.sub(repl, s)` over the character list.  `fuel`
bounds the recursion; each step consumes at least one character, so
`fuel = s.length` never runs out.  Our patterns cannot match the empty
string (each starts with a literal), so the zero-width branch keeps the
character, like the no-match branch. -/
def rsubLoopF (p : List RAtom) (repl : List Char) :
    Nat → List Char → Bool → List Char
  | _, [], _ => []
  | 0, s, _ => s
  | fuel + 1, c :: s2, atStart =>
      match rmatchLen p (c :: s2) atStart with
      | some (n + 1) => repl ++ rsubLoopF p repl fuel ((c :: s2).drop (n + 1)) false
      | some 0 => c :: rsubLoopF p repl fuel s2 false
      | none => c :: rsubLoopF p repl fuel s2 false

/-- `pattern.sub(repl, s)`: replace every occurrence, scanning left to
right. -/
def pySub (p : List RAtom) (repl : String) (s : String) : String :=
  String.mk (rsubLoopF p repl.data s.data.length s.data true)

/-- `\s` for the patterns in `controller.py` (ASCII whitespace). -/
def isPySpace (c : Char) : Bool :=
  c = ' ' || c = '\t' || c = '\n' || c = '\r' || c = '\x0b' || c = '\x0c'

/-- The character class `[a-zA-Z_\-0-9\.]` from the `INVALID` pattern. -/
def allowedKeyChar (c : Char) : Bool :=
  ('a' ≤ c && c ≤ 'z') || ('A' ≤ c && c ≤ 'Z') || c = '_' || c = '-' ||
    ('0' ≤ c && c ≤ '9') || c = '.'

/-- `SAMPLE_RATE = re.compile(u'/^@([\d\.]+)/')` (controller.py:27).
The pattern is the JS literal `/^@([\d\.]+)/` taken verbatim: a literal
`/`, then `^`, `@`, one or more of `[\d\.]`, and a literal `/`.  The
capture group does not affect whether the pattern matches. -/
def sampleRateRe : List RAtom :=
  [.lit '/', .startAnchor, .lit '@',
   .plusCls (fun c => ('0' ≤ c && c ≤ '9') || c = '.'), .lit '/']

/-- `SIGNED_GAUGE = re.compile(u'/^[-+]/')` (controller.py:28): a literal
`/`, then `^`, the class `[-+]`, and a literal `/`. -/
def signedGaugeRe : List RAtom :=
  [.lit '/', .startAnchor, .cls (fun c => c = '-' || c = '+'), .lit '/']

/-- `INVALID = re.compile(r'/[^a-zA-Z_\-0-9\.]/g')` (controller.py:51). -/
def invalidRe : List RAtom :=
  [.lit '/', .cls (fun c => !allowedKeyChar c), .lit '/', .lit 'g']

/-- `SLASH = re.compile(r'/\//g')` (controller.py:52). -/
def slashRe : List RAtom :=
  [.lit '/', .lit '/', .lit '/', .lit 'g']

/-- `WHITESPACE = re.compile(r'/\s+/g')` (controller.py:53). -/
def whitespaceRe : List RAtom :=
  [.lit '/', .plusCls isPySpace, .lit '/', .lit 'g']

/-- The `FIXUP` loop of `process_data` (controller.py:54-56, 364-365):
apply the three substitutions in order. -/
def fixupKey (key : String) : String :=
  pySub whitespaceRe "_" (pySub slashRe "-" (pySub invalidRe "" key))

/-! ## Python numeric conversions -/

/-- Decimal value of a nonempty all-digit character list. -/
def digitsVal (cs : List Char) : Option Nat :=
  if cs.isEmpty then none
  else if cs.all (fun c => c.isDigit) then
    some (cs.foldl (fun a c => a * 10 + (c.toNat - '0'.toNat)) 0)
  else none

/-- `int(s)` on a string: optional surrounding whitespace, an optional
sign, then one or more decimal digits; anything else raises ValueError
(modelled as `none`). -/
def pyInt (s : String) : Option Int :=
  let cs := ((s.data.dropWhile isPySpace).reverse.dropWhile isPySpace).reverse
  match cs with
  | '+' :: rest => (digitsVal rest).map Int.ofNat
  | '-' :: rest => (digitsVal rest).map (fun n => -(n : Int))
  | rest => (digitsVal rest).map Int.ofNat

/-- `float(s)` on a string: optional whitespace and sign, then digits with
an optional fractional part (`12`, `12.`, `.5`, `3.25`); anything else is
`none` (ValueError). -/
def pyRat (s : String) : Option ℚ :=
  let cs := ((s.data.dropWhile isPySpace).reverse.dropWhile isPySpace).reverse
  let core := fun (body : List Char) =>
    match body.splitOn '.' with
    | [a] => (digitsVal a).map (fun n => (n : ℚ))
    | [a, b] =>
        if a.isEmpty && b.isEmpty then none
        else if a.all (fun c => c.isDigit) && b.all (fun c => c.isDigit) then
          some (((digitsVal a).getD 0 : ℚ) +
            ((digitsVal b).getD 0 : ℚ) / (10 ^ b.length : ℚ))
        else none
    | _ => none
  match cs with
  | '+' :: rest => core rest
  | '-' :: rest => (core rest).map (fun q => -q)
  | rest => core rest

/-- `int(q)` on a number: truncation toward zero. -/
def pyTrunc (q : ℚ) : Int := q.num / q.den

/-! ## Python strings -/

/-- `s.split(sep)` on the character list (single-character separator):
`''.split(sep) = ['']`, adjacent separators yield empty pieces. -/
def splitChar (sep : Char) : List Char → List (List Char)
  | [] => [[]]
  | c :: rest =>
      match splitChar sep rest with
      | [] => [[]]
      | h :: t => if c = sep then [] :: h :: t else (c :: h) :: t

/-- `data.split(sep)` for a one-character separator. -/
def pySplit (sep : Char) (s : String) : List String :=
  (splitChar sep s.data).map String.mk

/-- `c in s` for a character. -/
def pyContains (s : String) (c : Char) : Bool :=
  s.data.contains c

/-! ## Dynamically-typed metric values

A statsd line value is a string, the parser substitutes the int `0` for an
empty value field, and `downstream_data` feeds numbers and whole
value-occurrence dicts into the handlers, so the handler value type covers
all three. -/

/-- A Python value reaching `handle_counter` / `handle_gauge` /
`handle_set` / `handle_timer`. -/
inductive SVal where
  /-- a string -/
  | str (s : String)
  /-- an int or float -/
  | num (q : ℚ)
  /-- a dict, as fed to `handle_set` by `downstream_data` -/
  | dict (m : List (SVal × Nat))

/-- Structural equality test for `SVal` (Python `==` on these values). -/
def SVal.beq : SVal → SVal → Bool
  | .str a, .str b => a = b
  | .num a, .num b => a = b
  | .dict a, .dict b => go a b
  | _, _ => false
where
  /-- equality of the entry lists of two dict values -/
  go : List (SVal × Nat) → List (SVal × Nat) → Bool
  | [], [] => true
  | (k1, v1) :: r1, (k2, v2) :: r2 =>
      SVal.beq k1 k2 && v1 = v2 && go r1 r2
  | _, _ => false

/-- Python hashability: strings and numbers are hashable, dicts are not. -/
def pyHashable : SVal → Bool
  | .dict _ => false
  | _ => true

/-- Lookup in a set's value-occurrence map (`set_data[value]`). -/
def svLookup : List (SVal × Nat) → SVal → Option Nat
  | [], _ => none
  | (k2, v) :: rest, k => if SVal.beq k2 k then some v else svLookup rest k

/-- Item assignment in a set's value-occurrence map. -/
def svSet : List (SVal × Nat) → SVal → Nat → List (SVal × Nat)
  | [], k, v => [(k, v)]
  | (k2, v2) :: rest, k, v =>
      if SVal.beq k2 k then (k, v) :: rest else (k2, v2) :: svSet rest k v

/-- `int(value)` on a handler value: parse a string (ValueError on
failure), truncate a number, TypeError on a dict. -/
def pyIntOfSVal : SVal → Except PyErr Int
  | .str s =>
      match pyInt s with
      | some n => .ok n
      | none => .error .valueError
  | .num q => .ok (pyTrunc q)
  | .dict _ => .error .typeError

/-- `float(value)` on a handler value. -/
def pyRatOfSVal : SVal → Except PyErr ℚ
  | .str s =>
      match pyRat s with
      | some q => .ok q
      | none => .error .valueError
  | .num q => .ok q
  | .dict _ => .error .typeError

/-! ## The controller state -/

/-- The three-level internal-metric dictionaries
`{metric_type: {host: {key: value}}}`. -/
def L3 (α : Type) : Type := List (String × List (String × List (String × α)))

/-- `new_int_metric_dict` (controller.py:334-341). -/
def newIntMetricDict (host : String) {α : Type} : L3 α :=
  [("backend", [(host, [])]), ("controller", [(host, [])])]

/-- Lookup through all three levels of an internal-metric dict. -/
def l3get {α : Type} (d : L3 α) (mt host key : String) : Option α :=
  match dlookup d mt with
  | none => none
  | some hm =>
      match dlookup hm host with
      | none => none
      | some km => dlookup km key

/-- The mutable attributes of the `Cardiff` controller
(`create_empty_stat_attributes`, controller.py:112-120). -/
structure CardiffState where
  host : String
  counters : List (String × ℚ)
  gauges : List (String × Int)
  sets : List (String × List (SVal × Nat))
  timers : List (String × List ℚ)
  internal_counters : L3 Int
  internal_gauges : L3 ℚ
  internal_timers : L3 (List ℚ)

/-- The state after `create_empty_stat_attributes` for a given host. -/
def freshState (host : String) : CardiffState :=
  { host := host, counters := [], gauges := [], sets := [], timers := []
    internal_counters := newIntMetricDict host
    internal_gauges := newIntMetricDict host
    internal_timers := newIntMetricDict host }

/-- Result of a stateful operation: the state reached, plus the exception
in flight if one was raised. -/
def PRes : Type := CardiffState × Option PyErr

/-- Sequence two stateful operations; an exception in flight skips the
second (Python exception propagation). -/
def andThen (r : PRes) (f : CardiffState → PRes) : PRes :=
  match r with
  | (st, some e) => (st, some e)
  | (st, none) => f st

/-! ## Controller operations (controller.py) -/

/-- `Cardiff.incr` (controller.py:279-289): add to a counter, creating it
on KeyError. -/
def incr (st : CardiffState) (key : String) (value : ℚ) : CardiffState :=
  match dlookup st.counters key with
  | some v => { st with counters := dset st.counters key (v + value) }
  | none => { st with counters := dset st.counters key value }

/-- `Cardiff.internal_incr` (controller.py:305-316).  The `try` adds to
`internal_counters[metric_type][self.host][key]`; on KeyError the
`except` assigns the value at that path.  When `metric_type` or the host
level is missing, the assignment in the `except` block itself raises
KeyError, which propagates. -/
def internal_incr (st : CardiffState) (key : String) (value : Int)
    (metric_type : String) : PRes :=
  match dlookup st.internal_counters metric_type with
  | none => (st, some .keyError)
  | some hm =>
      match dlookup hm st.host with
      | none => (st, some .keyError)
      | some km =>
          let v2 :=
            match dlookup km key with
            | some v => v + value
            | none => value
          let ic2 :=
            dset st.internal_counters metric_type
              (dset hm st.host (dset km key v2))
          ({ st with internal_counters := ic2 }, none)

/-- `Cardiff.internal_timer` (controller.py:318-332) with the measured
duration passed in.  The `try` appends to
`internal_timers[metric_type][self.host][key]`; on KeyError the `except`
assigns an empty list there and retries (net effect: a one-element
list).  As with `internal_incr`, a missing `metric_type` or host level
makes the `except` block raise KeyError. -/
def internal_timer (st : CardiffState) (key : String) (duration : ℚ)
    (metric_type : String) : PRes :=
  match dlookup st.internal_timers metric_type with
  | none => (st, some .keyError)
  | some hm =>
      match dlookup hm st.host with
      | none => (st, some .keyError)
      | some km =>
          let lst2 :=
            match dlookup km key with
            | some lst => lst ++ [duration]
            | none => [] ++ [duration]
          let it2 :=
            dset st.internal_timers metric_type
              (dset hm st.host (dset km key lst2))
          ({ st with internal_timers := it2 }, none)

/-- `Cardiff.handle_counter` (controller.py:219-228):
`incr(key, int(value) * (1 / sample_size))`, then bump the internal
`counters` metric. -/
def handle_counter (st : CardiffState) (key : String) (value : SVal)
    (sample_size : ℚ) : PRes :=
  match pyIntOfSVal value with
  | .error e => (st, some e)
  | .ok n =>
      andThen (incr st key ((n : ℚ) * (1 / sample_size)), none)
        (fun st1 => internal_incr st1 "counters" 1 "controller")

/-- `Cardiff.handle_gauge` (controller.py:230-245).  A previously-unseen
key is first initialised to `0`.  `SIGNED_GAUGE.match(value)` requires a
string (TypeError otherwise) and decides between adding and replacing;
`int(value)` raises ValueError on a non-numeric string. -/
def handle_gauge (st : CardiffState) (key : String) (value : SVal) : PRes :=
  let st1 :=
    if containsKey st.gauges key then st
    else { st with gauges := dset st.gauges key 0 }
  match value with
  | .str s =>
      if pyMatch signedGaugeRe s then
        match pyInt s with
        | none => (st1, some .valueError)
        | some n =>
            let cur := (dlookup st1.gauges key).getD 0
            andThen ({ st1 with gauges := dset st1.gauges key (cur + n) }, none)
              (fun st2 => internal_incr st2 "gauges" 1 "controller")
      else
        match pyInt s with
        | none => (st1, some .valueError)
        | some n =>
            andThen ({ st1 with gauges := dset st1.gauges key n }, none)
              (fun st2 => internal_incr st2 "gauges" 1 "controller")
  | _ => (st1, some .typeError)

/-- `Cardiff.handle_set` (controller.py:247-260).  A previously-unseen key
is first given an empty dict.  `self.sets[key][value] += 1` hashes the
value (TypeError on a dict) and on KeyError the `except` block replaces
the whole map with `{value: 1}`. -/
def handle_set (st : CardiffState) (key : String) (value : SVal) : PRes :=
  let sets1 :=
    if containsKey st.sets key then st.sets
    else dset st.sets key []
  let st1 := { st with sets := sets1 }
  if pyHashable value then
    let cur := (dlookup sets1 key).getD []
    let sets2 :=
      match svLookup cur value with
      | some n => dset sets1 key (svSet cur value (n + 1))
      | none => dset sets1 key [(value, 1)]
    andThen ({ st1 with sets := sets2 }, none)
      (fun st2 => internal_incr st2 "sets" 1 "controller")
  else (st1, some .typeError)

/-- One iteration of the `handle_timer` append loop: append to
`timers[key]`, creating the list on KeyError. -/
def timerAppend (timers : List (String × List ℚ)) (key : String) (q : ℚ) :
    List (String × List ℚ) :=
  match dlookup timers key with
  | some lst => dset timers key (lst ++ [q])
  | none => dset timers key [q]

/-- `Cardiff.handle_timer` (controller.py:262-277): append `float(value)`
once per sampled iteration (`range(0, int(sample_size))`, with
`sample_size` clamped up to 1), then bump the internal `timers` metric. -/
def handle_timer (st : CardiffState) (key : String) (value : SVal)
    (sample_size : ℚ) : PRes :=
  let sample := if sample_size < 1 then 1 else sample_size
  match pyRatOfSVal value with
  | .error e => (st, some e)
  | .ok q =>
      let n := (pyTrunc sample).toNat
      let timers2 := (List.range n).foldl (fun t _ => timerAppend t key q) st.timers
      andThen ({ st with timers := timers2 }, none)
        (fun st1 => internal_incr st1 "timers" 1 "controller")

/-! ## `Cardiff.process_data` (controller.py:343-395) -/

/-- The statsd type character and everything after it: break apart the
frame, look up `parts[1]` (IndexError when the line has no `|`), and
dispatch to the handler, or bump `bad_lines_seen` for an unknown type.
The trailing `internal_timer(METRICS_PROCESSING_TIME, ...)` call of
`process_data` runs after the dispatch. -/
def dispatchLine (st : CardiffState) (key : String) (value : SVal)
    (sample : ℚ) (parts : List String) (dur : ℚ) : PRes :=
  match parts[1]? with
  | none => (st, some .indexError)
  | some t =>
      let r :=
        if t = "c" then handle_counter st key value sample
        else if t = "g" then handle_gauge st key value
        else if t = "ms" then handle_timer st key value sample
        else if t = "s" then handle_set st key value
        else internal_incr st "bad_lines_seen" 1 "controller"
      andThen r (fun st2 => internal_timer st2 "processing_time" dur "controller")

/-- The body of `process_data` for a line without embedded newlines,
after the `packets_received` bump: split the frame on `|`, pop the key
off `parts[0]` and fix it up, default an absent value field to `'1'` and
an empty one to the int `0`, validate a three-part line's sample rate
against `SAMPLE_RATE` (on failure: record the processing time, bump
`bad_lines_seen` and return), convert the rate with `float`, and
dispatch. -/
def process_line (st : CardiffState) (data : String) (dur : ℚ) : PRes :=
  let parts := pySplit '|' data
  let bits0 := pySplit ':' (parts.headD "")
  let key0 := bits0.headD ""
  let bits := bits0.tail
  let key := fixupKey key0
  let bits1 := if bits.isEmpty then ["1"] else bits
  let value : SVal :=
    if bits1.headD "" = "" then .num 0 else .str (bits1.headD "")
  if parts.length = 3 then
    let p2 := parts[2]?.getD ""
    if pyMatch sampleRateRe p2 then
      match pyRat p2 with
      | none => (st, some .valueError)
      | some sample => dispatchLine st key value sample parts dur
    else
      andThen (internal_timer st "processing_time" dur "controller")
        (fun st2 => internal_incr st2 "bad_lines_seen" 1 "controller")
  else dispatchLine st key value 1 parts dur

/-- One recursive `process_data` call made from the multi-line list
comprehension.  Each sub-line of `data.split('\n')` contains no newline,
so the recursive call bumps `packets_received` and then takes the
single-line branch; it is unrolled here to keep the recursion
structural. -/
def process_sub (st : CardiffState) (line : String) (dur : ℚ) : PRes :=
  andThen (internal_incr st "packets_received" 1 "controller")
    (fun st1 => process_line st1 line dur)

/-- `Cardiff.process_data` (controller.py:343-395): bump
`packets_received`, then either run the list comprehension over the
newline-separated sub-lines (an exception aborts it) or process the
single line. -/
def process_data (st : CardiffState) (data : String) (dur : ℚ) : PRes :=
  andThen (internal_incr st "packets_received" 1 "controller") fun st1 =>
    if pyContains data '\n' then
      (pySplit '\n' data).foldl
        (fun acc line => andThen acc (fun st2 => process_sub st2 line dur))
        (st1, none)
    else process_line st1 data dur

/-! ## `Cardiff.snapshot` (controller.py:478-522) -/

/-- The counter/gauge snapshot loop: for each key of the dict, copy
`d.get(key)` into the output and delete the key.  `dict.get` returns
`None` for a missing key, hence the `Option` values in the output. -/
def snapDict {α : Type} (d : List (String × α)) :
    List (String × Option α) × List (String × α) :=
  (d.map (fun p => p.1)).foldl
    (fun acc k => (dset acc.1 k (dlookup acc.2 k), eraseKey acc.2 k))
    ([], d)

/-- The set/timer snapshot loop: `deepcopy(d[key])` into the output, then
delete the key.  Direct indexing cannot miss (each binding is visited
once), so the default is unreachable. -/
def snapDictCopy {α : Type} (default : α) (d : List (String × α)) :
    List (String × α) × List (String × α) :=
  (d.map (fun p => p.1)).foldl
    (fun acc k => (dset acc.1 k ((dlookup acc.2 k).getD default), eraseKey acc.2 k))
    ([], d)

/-- The list returned by `snapshot` (timestamp and seven metric
structures). -/
structure Snapshot where
  ts : Int
  counters : List (String × Option ℚ)
  gauges : List (String × Option Int)
  sets : List (String × List (SVal × Nat))
  timers : List (String × List ℚ)
  int_counters : L3 Int
  int_gauges : L3 ℚ
  int_timers : L3 (List ℚ)

/-- `Cardiff.snapshot` (controller.py:478-522): move the four public maps
into the snapshot, deep-copy and reset the internal maps, recording the
snapshot duration in `internal_timers` just before that map is copied
and reset.  A KeyError from `internal_timer` propagates, leaving the
partially-reset state. -/
def snapshot (st : CardiffState) (now : Int) (durSnap : ℚ) :
    Option Snapshot × CardiffState × Option PyErr :=
  let (cOut, cRem) := snapDict st.counters
  let (gOut, gRem) := snapDict st.gauges
  let (sOut, sRem) := snapDictCopy [] st.sets
  let (tOut, tRem) := snapDictCopy [] st.timers
  let intC := st.internal_counters
  let intG := st.internal_gauges
  let st1 :=
    { st with counters := cRem, gauges := gRem, sets := sRem, timers := tRem,
              internal_counters := newIntMetricDict st.host,
              internal_gauges := newIntMetricDict st.host }
  match internal_timer st1 "snapshot_time" durSnap "controller" with
  | (st2, some e) => (none, st2, some e)
  | (st2, none) =>
      let intT := st2.internal_timers
      let st3 := { st2 with internal_timers := newIntMetricDict st.host }
      (some { ts := now, counters := cOut, gauges := gOut, sets := sOut,
              timers := tOut, int_counters := intC, int_gauges := intG,
              int_timers := intT }, st3, none)

/-! ## `Cardiff.downstream_data` (controller.py:153-208) -/

/-- `merge_dicts` (controller.py:64-79) specialised to the innermost
level of the internal-metric dicts: the values are numbers or lists, not
mappings, so each key of `u` overwrites. -/
def mergeL1 {α : Type} (d u : List (String × α)) : List (String × α) :=
  u.foldl (fun d p => dset d p.1 p.2) d

/-- `merge_dicts` at the host level: the values are dicts, so they are
merged recursively (`d.get(k, {})` supplies an empty dict). -/
def mergeL2 {α : Type} (d u : List (String × List (String × α))) :
    List (String × List (String × α)) :=
  u.foldl (fun d p => dset d p.1 (mergeL1 ((dlookup d p.1).getD []) p.2)) d

/-- `merge_dicts` at the metric-type level. -/
def mergeL3 {α : Type} (d u : L3 α) : L3 α :=
  u.foldl (fun d p => dset d p.1 (mergeL2 ((dlookup d p.1).getD []) p.2)) d

/-- The payload sent by `UpstreamBackend.get_metrics`
(backends/upstream.py:86-115) and unpacked into `downstream_data`:
counter values are numbers, gauge values are the signed strings produced
by `sign_gauges`, set values are whole value-occurrence dicts, timer
values are lists of floats. -/
structure Payload where
  counters : List (String × ℚ)
  gauges : List (String × String)
  sets : List (String × List (SVal × Nat))
  timers : List (String × List ℚ)
  int_counters : L3 Int
  int_gauges : L3 ℚ
  int_timers : L3 (List ℚ)

/-- Fold an action over the entries of a remote dict, stopping at the
first exception (the `for` loop dies when a handler raises). -/
def foldEntries {α : Type} (r : PRes) (entries : List (String × α))
    (f : CardiffState → String → α → PRes) : PRes :=
  entries.foldl (fun acc p => andThen acc (fun st => f st p.1 p.2)) r

/-- `Cardiff.downstream_data` (controller.py:153-208): bump the payload
counter, feed every remote counter/gauge/set entry to the corresponding
handler (the whole set dict is passed to `handle_set` as a single
value), concatenate remote timer lists, merge the remote internal maps
with `merge_dicts`, and record the processing time.  Each loop iteration
also bumps `downstream_packets_received`.  The `host` argument is unused
by the source body. -/
def downstream_data (st : CardiffState) (_host : String) (p : Payload)
    (dur : ℚ) : PRes :=
  let r0 := internal_incr st "downstream_payloads_received" 1 "controller"
  let r1 := foldEntries r0 p.counters fun st2 k v =>
    andThen (handle_counter st2 k (.num v) 1)
      (fun st3 => internal_incr st3 "downstream_packets_received" 1 "controller")
  let r2 := foldEntries r1 p.gauges fun st2 k v =>
    andThen (handle_gauge st2 k (.str v))
      (fun st3 => internal_incr st3 "downstream_packets_received" 1 "controller")
  let r3 := foldEntries r2 p.sets fun st2 k v =>
    andThen (handle_set st2 k (.dict v))
      (fun st3 => internal_incr st3 "downstream_packets_received" 1 "controller")
  let r4 := foldEntries r3 p.timers fun st2 k v =>
    let t1 :=
      if containsKey st2.timers k then st2.timers
      else dset st2.timers k []
    let t2 := dset t1 k ((dlookup t1 k).getD [] ++ v)
    andThen (internal_incr { st2 with timers := t2 } "timers" v.length "controller")
      (fun st3 => internal_incr st3 "downstream_packets_received" 1 "controller")
  let r5 := andThen r4 fun st2 =>
    let st3 := { st2 with internal_counters := mergeL3 st2.internal_counters p.int_counters }
    let st4 := { st3 with internal_gauges := mergeL3 st3.internal_gauges p.int_gauges }
    let st5 := { st4 with internal_timers := mergeL3 st4.internal_timers p.int_timers }
    (st5, none)
  andThen r5 (fun st2 => internal_timer st2 "processing_time" dur "controller")

/-! ## `Backend` calculations (backends/base.py) -/

/-- `Backend.percentile` (base.py:122-137): `None` on an empty list,
otherwise the linearly-interpolated value at index `k = (n-1)·percent`
of the sorted list: `values[int(k)]` when `k` is integral, else
`values[int(floor)]·(ceil−k) + values[int(ceil)]·(k−floor)`. -/
def percentile (values : List ℚ) (percent : ℚ) : Option ℚ :=
  if values.isEmpty then none
  else
    let k : ℚ := ((values.length : ℚ) - 1) * percent
    let f : ℤ := ⌊k⌋
    let c : ℤ := ⌈k⌉
    if f = c then some (values.getD f.toNat 0)
    else some (values.getD f.toNat 0 * ((c : ℚ) - k) +
      values.getD c.toNat 0 * (k - (f : ℚ)))

/-- `Backend.median` (base.py:113-120): the 0.5 percentile. -/
def median (values : List ℚ) : Option ℚ :=
  percentile values (1 / 2)

/-- The dict returned by `Backend.calc_timer_values`. -/
structure TimerStats where
  count : Nat
  count_ps : ℚ
  tmin : ℚ
  tmax : ℚ
  mean : ℚ
  total : ℚ
  med : ℚ
  p95 : ℚ
  p90 : ℚ
deriving Repr

/-- `Backend.calc_timer_values` (base.py:69-111): all-zero stats for an
empty timer; otherwise sort the values and derive count, count-per-second
(Python 2 integer floor division by the interval), min, max, mean,
total, median and the 90th/95th percentiles.  `percentile` never returns
`None` on the sorted non-empty list, so the `getD 0` defaults are
unreachable. -/
def calc_timer_values (interval : Int) (timer : List ℚ) : TimerStats :=
  if timer.isEmpty then
    { count := 0, count_ps := 0, tmin := 0, tmax := 0, mean := 0,
      total := 0, med := 0, p95 := 0, p90 := 0 }
  else
    let t := timer.mergeSort
    let count := t.length
    let total := t.sum
    { count := count
      count_ps := (((count : Int).fdiv interval : Int) : ℚ)
      tmin := t.headD 0
      tmax := t.getLastD 0
      mean := total / (count : ℚ)
      total := total
      med := (median t).getD 0
      p95 := (percentile t (95 / 100)).getD 0
      p90 := (percentile t (90 / 100)).getD 0 }

/-- The value of the expression `set_data.keys().sort()`
(base.py:56): `list.sort()` sorts in place and returns `None`, for every
list. -/
def listSortInPlaceResult {α : Type} (_l : List α) : Option (List α) :=
  none

/-- `'%i' % (value * 1000)` for one set member: for a number the product
is truncated and formatted; for a string, `value * 1000` is string
repetition and the `%i` conversion raises TypeError; a dict does not
support `*` at all. -/
def histKey : SVal → Except PyErr String
  | .num q => .ok (toString (pyTrunc (q * 1000)))
  | .str _ => .error .typeError
  | .dict _ => .error .typeError

/-- The histogram loop of `calc_set_values` (base.py:58-62). -/
def histLoop : List SVal → List (String × Nat) → Except PyErr (List (String × Nat))
  | [], acc => .ok acc
  | v :: rest, acc =>
      match histKey v with
      | .error e => .error e
      | .ok k => histLoop rest (dset acc k ((dlookup acc k).getD 0 + 1))

/-- The dict returned by `Backend.calc_set_values`; `none` fields encode
keys absent from the returned dict (the empty-set result has only
`count` and `count_ps`). -/
structure SetStats where
  count : Nat
  count_ps : ℚ
  histogram : Option (List (String × Nat))
  values : Option (List (SVal × Nat))

/-- `Backend.calc_set_values` (base.py:46-67): `{count: 0, count_ps: 0}`
for an empty set.  Otherwise the source computes
`keys = set_data.keys().sort()`; since `list.sort()` returns `None`,
`keys` is `None` and the `for value in keys` loop raises TypeError, so
the branch building the histogram is unreachable. -/
def calc_set_values (interval : Int) (set_data : List (SVal × Nat)) :
    Except PyErr SetStats :=
  if set_data.isEmpty then
    .ok { count := 0, count_ps := 0, histogram := none, values := none }
  else
    match listSortInPlaceResult (set_data.map (fun p => p.1)) with
    | none => .error .typeError
    | some keys =>
        match histLoop keys [] with
        | .error e => .error e
        | .ok hist =>
            .ok { count := keys.length
                  count_ps := (((keys.length : Int).fdiv interval : Int) : ℚ)
                  histogram := some hist
                  values := some set_data }

/-! ## General lemmas about the embedded definitions -/

/-- `SIGNED_GAUGE` can match no string: after its leading literal `/` the
`^` assertion would have to hold one character in. -/
theorem signedGauge_never_matches (s : String) :
    pyMatch signedGaugeRe s = false := by
  cases h : s.data with
  | nil => simp [pyMatch, signedGaugeRe, rmatchLen, h]
  | cons c rest =>
      simp only [pyMatch, signedGaugeRe, rmatchLen, h]
      split <;> simp [rmatchLen]

/-- `SAMPLE_RATE` can match no string, for the same reason. -/
theorem sampleRate_never_matches (s : String) :
    pyMatch sampleRateRe s = false := by
  cases h : s.data with
  | nil => simp [pyMatch, sampleRateRe, rmatchLen, h]
  | cons c rest =>
      simp only [pyMatch, sampleRateRe, rmatchLen, h]
      split <;> simp [rmatchLen]

theorem dlookup_dset_self {α : Type} (d : List (String × α)) (k : String)
    (v : α) : dlookup (dset d k v) k = some v := by
  induction d with
  | nil => simp [dset, dlookup]
  | cons p rest ih =>
      obtain ⟨k2, v2⟩ := p
      by_cases h : k2 = k <;> simp [dset, dlookup, h, ih]

theorem dlookup_dset_ne {α : Type} (d : List (String × α)) (k k2 : String)
    (v : α) (h : k2 ≠ k) : dlookup (dset d k v) k2 = dlookup d k2 := by
  induction d with
  | nil => simp [dset, dlookup, Ne.symm h]
  | cons p rest ih =>
      obtain ⟨k3, v3⟩ := p
      by_cases h3 : k3 = k
      · simp [dset, dlookup, h3, Ne.symm h]
      · simp [dset, dlookup, h3, ih]

/-! ## Claims -/

/-- C1: the spec claims `apply_gauge` adds signed samples (`+N`/`-N`) to
the current value, so the sequence 10, +3, -1 on one key should flush
12.  In the code `SIGNED_GAUGE` (the JS literal `/^[-+]/`) matches no
string, so every sample — signed or not — replaces the stored value:
after 10, +3, -1 the gauge holds `int('-1') = -1`, not 12, and no
exception is raised. -/
theorem c1_gauge_signed_deltas_ignored :
    (let r :=
      andThen (andThen (handle_gauge (freshState "node") "k" (.str "10"))
          (fun st => handle_gauge st "k" (.str "+3")))
        (fun st => handle_gauge st "k" (.str "-1"))
     r.2 = none ∧ dlookup r.1.gauges "k" = some (-1) ∧
       ¬ dlookup r.1.gauges "k" = some 12) := by
  decide

/-- C2: the spec claims a counter line with sample rate `@0.5` is
accepted and applies `int(value)·(1/0.5)`, so `foo:10|c|@0.5` should
flush `foo = 20`.  In the code `SAMPLE_RATE` (the JS literal
`/^@([\d\.]+)/`) matches no string, so every three-part line is treated
as having an invalid sample rate: `bad_lines_seen` is bumped, the line
is dropped, and the counter `foo` is never created. -/
theorem c2_sample_rate_line_dropped :
    (let r := process_data (freshState "node") "foo:10|c|@0.5" 0
     r.2 = none ∧ dlookup r.1.counters "foo" = none ∧
       l3get r.1.internal_counters "controller" "node" "bad_lines_seen" =
         some 1) := by
  decide

/-- C3: the spec claims a malformed line such as `bad line garbage`
bumps `bad_lines_seen`, is dropped, and the rest of the datagram is
still processed.  In the code a line without `|` makes `parts[1]` raise
IndexError: `bad_lines_seen` stays untouched and the remaining sub-lines
of the datagram are never processed. -/
theorem c3_malformed_line_raises_index_error :
    (let r := process_data (freshState "node") "bad line garbage\nok:1|c" 0
     r.2 = some PyErr.indexError ∧
       l3get r.1.internal_counters "controller" "node" "bad_lines_seen" =
         none ∧
       dlookup r.1.counters "ok" = none) := by
  decide

/-- C5: the spec claims `calc_set_values` returns
`{count, count_ps, histogram, values}` for a non-empty set and never
raises.  In the code `keys = set_data.keys().sort()` binds `None`
(`list.sort()` sorts in place), so iterating over `keys` raises
TypeError for every non-empty set; only the empty-set result
`{count: 0, count_ps: 0}` is ever returned. -/
theorem c5_calc_set_values_raises_on_nonempty :
    calc_set_values 300 [(SVal.str "a", 1)] = .error PyErr.typeError ∧
      calc_set_values 300 [] =
        .ok { count := 0, count_ps := 0, histogram := none, values := none } :=
  ⟨rfl, rfl⟩

/-- The two-payload scenario for the upstream-merge claim: a remote
payload carrying one set with one member. -/
def setPayload : Payload :=
  { counters := [], gauges := [], sets := [("k", [(SVal.str "a", 1)])],
    timers := [], int_counters := [], int_gauges := [], int_timers := [] }

/-- C6: the spec claims merging a well-formed downstream payload never
raises and merges set value-occurrence maps additively.  In the code
`downstream_data` passes each remote set's whole value-occurrence dict
to `handle_set` as a single set member; `self.sets[key][value]` then
hashes that dict and raises TypeError, aborting the merge (after the
payload counter was already bumped and the key was created with an empty
map). -/
theorem c6_downstream_set_merge_raises :
    (let r := downstream_data (freshState "node") "remote" setPayload 0
     r.2 = some PyErr.typeError ∧
       l3get r.1.internal_counters "controller" "node"
         "downstream_payloads_received" = some 1) := by
  decide

/-! ## Tracking the `packets_received` internal counter -/

/-- The live `packets_received` internal counter of a state. -/
def lkpPackets (st : CardiffState) : Option Int :=
  l3get st.internal_counters "controller" st.host "packets_received"

/-- The controller/host scaffold of `internal_counters` is present, so an
`internal_incr` on the controller branch cannot raise. -/
def wfHost (st : CardiffState) : Bool :=
  ((dlookup st.internal_counters "controller").bind
    (fun hm => dlookup hm st.host)).isSome

theorem internal_incr_packets_preserved (st : CardiffState) (k : String)
    (v : Int) (mt : String) (h : k ≠ "packets_received") :
    lkpPackets (internal_incr st k v mt).1 = lkpPackets st := by
  cases h1 : dlookup st.internal_counters mt with
  | none => simp [internal_incr, h1]
  | some hm =>
      cases h2 : dlookup hm st.host with
      | none => simp [internal_incr, h1, h2]
      | some km =>
          simp only [internal_incr, h1, h2, lkpPackets, l3get]
          by_cases hmt : mt = "controller"
          · subst hmt
            simp only [dlookup_dset_self, h1, h2,
              dlookup_dset_ne _ _ _ _ (Ne.symm h)]
          · simp only [dlookup_dset_ne _ _ _ _ (fun h3 => hmt h3.symm), h1, h2]

theorem internal_timer_other_fields (st : CardiffState) (k : String) (d : ℚ)
    (mt : String) :
    (internal_timer st k d mt).1.counters = st.counters ∧
    (internal_timer st k d mt).1.gauges = st.gauges ∧
    (internal_timer st k d mt).1.sets = st.sets ∧
    (internal_timer st k d mt).1.timers = st.timers ∧
    (internal_timer st k d mt).1.internal_counters = st.internal_counters ∧
    (internal_timer st k d mt).1.internal_gauges = st.internal_gauges ∧
    (internal_timer st k d mt).1.host = st.host := by
  cases h1 : dlookup st.internal_timers mt with
  | none => simp [internal_timer, h1]
  | some hm =>
      cases h2 : dlookup hm st.host with
      | none => simp [internal_timer, h1, h2]
      | some km => simp [internal_timer, h1, h2]

theorem internal_timer_packets_preserved (st : CardiffState) (k : String)
    (d : ℚ) (mt : String) :
    lkpPackets (internal_timer st k d mt).1 = lkpPackets st := by
  have h := internal_timer_other_fields st k d mt
  simp only [lkpPackets, h.2.2.2.2.1, h.2.2.2.2.2.2]

theorem incr_packets_preserved (st : CardiffState) (k : String) (v : ℚ) :
    lkpPackets (incr st k v) = lkpPackets st := by
  cases h1 : dlookup st.counters k <;> simp [incr, h1, lkpPackets]

theorem andThen_packets_preserved (r : PRes) (f : CardiffState → PRes)
    (hf : ∀ st, lkpPackets (f st).1 = lkpPackets st) :
    lkpPackets (andThen r f).1 = lkpPackets r.1 := by
  obtain ⟨st, err⟩ := r
  cases err with
  | none => simpa [andThen] using hf st
  | some e => rfl

theorem handle_counter_packets_preserved (st : CardiffState) (k : String)
    (value : SVal) (sample : ℚ) :
    lkpPackets (handle_counter st k value sample).1 = lkpPackets st := by
  cases h1 : pyIntOfSVal value with
  | error e => simp [handle_counter, h1]
  | ok n =>
      simp only [handle_counter, h1]
      rw [andThen_packets_preserved _ _
        (fun st2 => internal_incr_packets_preserved st2 _ _ _ (by decide))]
      exact incr_packets_preserved st k _

theorem handle_gauge_packets_preserved (st : CardiffState) (k : String)
    (value : SVal) :
    lkpPackets (handle_gauge st k value).1 = lkpPackets st := by
  have hst1 : ∀ g, lkpPackets { st with gauges := g } = lkpPackets st :=
    fun g => rfl
  have hii : ∀ (st2 : CardiffState),
      lkpPackets (internal_incr st2 "gauges" 1 "controller").1 =
        lkpPackets st2 :=
    fun st2 => internal_incr_packets_preserved st2 _ _ _ (by decide)
  cases value with
  | str s =>
      by_cases hm : pyMatch signedGaugeRe s <;>
        cases h1 : pyInt s <;>
          by_cases hc : containsKey st.gauges k <;>
            simp [handle_gauge, hm, h1, hc, andThen, hii, hst1]
  | num q =>
      by_cases hc : containsKey st.gauges k <;>
        simp [handle_gauge, hc, hst1]
  | dict m =>
      by_cases hc : containsKey st.gauges k <;>
        simp [handle_gauge, hc, hst1]

theorem handle_set_packets_preserved (st : CardiffState) (k : String)
    (value : SVal) :
    lkpPackets (handle_set st k value).1 = lkpPackets st := by
  have hst1 : ∀ s2, lkpPackets { st with sets := s2 } = lkpPackets st :=
    fun s2 => rfl
  have hii : ∀ (st2 : CardiffState),
      lkpPackets (internal_incr st2 "sets" 1 "controller").1 =
        lkpPackets st2 :=
    fun st2 => internal_incr_packets_preserved st2 _ _ _ (by decide)
  by_cases hh : pyHashable value
  · cases h1 : svLookup ((dlookup (if containsKey st.sets k then st.sets
        else dset st.sets k []) k).getD []) value <;>
      simp [handle_set, hh, h1, andThen, hii, hst1]
  · simp [handle_set, hh, hst1]

theorem handle_timer_packets_preserved (st : CardiffState) (k : String)
    (value : SVal) (sample : ℚ) :
    lkpPackets (handle_timer st k value sample).1 = lkpPackets st := by
  cases h1 : pyRatOfSVal value with
  | error e => simp [handle_timer, h1]
  | ok q =>
      have hst1 : ∀ t2, lkpPackets { st with timers := t2 } = lkpPackets st :=
        fun t2 => rfl
      have hii : ∀ (st2 : CardiffState),
          lkpPackets (internal_incr st2 "timers" 1 "controller").1 =
            lkpPackets st2 :=
        fun st2 => internal_incr_packets_preserved st2 _ _ _ (by decide)
      simp [handle_timer, h1, andThen, hii, hst1]

theorem dispatchLine_packets_preserved (st : CardiffState) (key : String)
    (value : SVal) (sample : ℚ) (parts : List String) (dur : ℚ) :
    lkpPackets (dispatchLine st key value sample parts dur).1 =
      lkpPackets st := by
  cases hp : parts[1]? with
  | none => simp only [dispatchLine, hp]
  | some t =>
      simp only [dispatchLine, hp]
      rw [andThen_packets_preserved _ _
        (fun st2 => internal_timer_packets_preserved st2 _ _ _)]
      by_cases h1 : t = "c"
      · simp [h1, handle_counter_packets_preserved]
      by_cases h2 : t = "g"
      · simp [h1, h2, handle_gauge_packets_preserved]
      by_cases h3 : t = "ms"
      · simp [h1, h2, h3, handle_timer_packets_preserved]
      by_cases h4 : t = "s"
      · simp [h1, h2, h3, h4, handle_set_packets_preserved]
      simp only [h1, h2, h3, h4, if_false]
      exact internal_incr_packets_preserved st "bad_lines_seen" 1 "controller"
        (by decide)

theorem process_line_packets_preserved (st : CardiffState) (data : String)
    (dur : ℚ) :
    lkpPackets (process_line st data dur).1 = lkpPackets st := by
  by_cases h3 : (pySplit '|' data).length = 3
  · simp only [process_line, h3, if_true]
    by_cases hm : pyMatch sampleRateRe ((pySplit '|' data)[2]?.getD "")
    · simp only [hm, if_true]
      cases hr : pyRat ((pySplit '|' data)[2]?.getD "") with
      | none => simp [hr]
      | some sample => simp [hr, dispatchLine_packets_preserved]
    · simp only [hm, if_false, Bool.false_eq_true]
      rw [andThen_packets_preserved _ _
        (fun st2 => internal_incr_packets_preserved st2 _ _ _ (by decide))]
      exact internal_timer_packets_preserved ..
  · simp only [process_line, h3, if_false]
    exact dispatchLine_packets_preserved ..

/-- An `internal_incr` of `packets_received` on a well-formed state
succeeds and adds one (baseline 0 for a fresh counter). -/
theorem internal_incr_packets_bump (st : CardiffState)
    (h : wfHost st = true) :
    (internal_incr st "packets_received" 1 "controller").2 = none ∧
      lkpPackets (internal_incr st "packets_received" 1 "controller").1 =
        some ((lkpPackets st).getD 0 + 1) := by
  unfold wfHost at h
  cases h1 : dlookup st.internal_counters "controller" with
  | none => simp [h1] at h
  | some hm =>
      cases h2 : dlookup hm st.host with
      | none => simp [h1, h2] at h
      | some km =>
          constructor
          · simp [internal_incr, h1, h2]
          · simp only [internal_incr, h1, h2, lkpPackets, l3get,
              dlookup_dset_self]
            cases h4 : dlookup km "packets_received" with
            | none => simp [h4]
            | some v => simp [h4]

/-- C7 counterexample: the claim says `packets_received` is bumped
exactly once per UDP datagram regardless of sub-lines, but the two-line
datagram `a:1|c\nb:1|c` bumps it three times: once on entry and once per
recursive `process_data` call on each sub-line. -/
theorem c7_multiline_datagram_bumps_thrice :
    (let r := process_data (freshState "node") "a:1|c\nb:1|c" 0
     l3get r.1.internal_counters "controller" "node" "packets_received" =
       some 3 ∧ ¬ (3 : Int) = 1) := by
  decide

/-- C7 (amended): `process_data` bumps `packets_received` once per
invocation, so a datagram without embedded newlines bumps it exactly
once (a datagram with n sub-lines instead bumps 1 + n times, as the
counterexample shows).  The hypothesis `wfHost` states that the
controller/host scaffold of `internal_counters` is present, as
`create_empty_stat_attributes` guarantees. -/
theorem c7_single_line_bumps_once (st : CardiffState) (data : String)
    (dur : ℚ) (h1 : pyContains data '\n' = false) (h2 : wfHost st = true) :
    lkpPackets (process_data st data dur).1 =
      some ((lkpPackets st).getD 0 + 1) := by
  obtain ⟨he, hv⟩ := internal_incr_packets_bump st h2
  unfold process_data
  cases hr : internal_incr st "packets_received" 1 "controller" with
  | mk st1 err =>
      rw [hr] at he hv
      simp only at he hv
      subst he
      simp only [andThen, h1, Bool.false_eq_true, if_false,
        process_line_packets_preserved]
      exact hv

/-- Witness for `c7_single_line_bumps_once` at the one-line datagram
`x:1|c` on a fresh node. -/
theorem c7_single_line_bumps_once_witness :
    pyContains "x:1|c" '\n' = false ∧ wfHost (freshState "node") = true ∧
      lkpPackets (process_data (freshState "node") "x:1|c" 0).1 =
        some ((lkpPackets (freshState "node")).getD 0 + 1) :=
  ⟨by decide, by decide,
    c7_single_line_bumps_once (freshState "node") "x:1|c" 0
      (by decide) (by decide)⟩

theorem internal_incr_other_fields (st : CardiffState) (k : String) (v : Int)
    (mt : String) :
    (internal_incr st k v mt).1.counters = st.counters ∧
    (internal_incr st k v mt).1.gauges = st.gauges ∧
    (internal_incr st k v mt).1.sets = st.sets ∧
    (internal_incr st k v mt).1.timers = st.timers ∧
    (internal_incr st k v mt).1.internal_gauges = st.internal_gauges ∧
    (internal_incr st k v mt).1.internal_timers = st.internal_timers ∧
    (internal_incr st k v mt).1.host = st.host := by
  cases h1 : dlookup st.internal_counters mt with
  | none => simp [internal_incr, h1]
  | some hm =>
      cases h2 : dlookup hm st.host with
      | none => simp [internal_incr, h1, h2]
      | some km => simp [internal_incr, h1, h2]

theorem andThen_counters_preserved (r : PRes) (f : CardiffState → PRes)
    (hf : ∀ st, (f st).1.counters = st.counters) :
    (andThen r f).1.counters = r.1.counters := by
  obtain ⟨st, err⟩ := r
  cases err with
  | none => simpa [andThen] using hf st
  | some e => rfl

/-- C9: in `process_data`, a line whose key is followed by a colon but an
empty value field gets the value `0` (`bits[0] or 0`), not the `'1'`
default used when there is no colon at all, so `foo:|c` increments the
counter `foo` by `int(0)·(1/1) = 0`: an existing counter keeps its value
and a fresh one is created at 0.  The `wfHost` hypothesis (the
controller/host scaffold is present, as `create_empty_stat_attributes`
guarantees) lets the entry `packets_received` bump succeed so that the
line is reached. -/
theorem c9_empty_value_parses_as_zero (st : CardiffState) (dur : ℚ)
    (h : wfHost st = true) :
    dlookup (process_data st "foo:|c" dur).1.counters "foo" =
      some ((dlookup st.counters "foo").getD 0) := by
  obtain ⟨he, -⟩ := internal_incr_packets_bump st h
  have hflds := internal_incr_other_fields st "packets_received" 1 "controller"
  cases hr : internal_incr st "packets_received" 1 "controller" with
  | mk st1 err =>
      rw [hr] at he hflds
      simp only at he
      subst he
      have hcnt : st1.counters = st.counters := hflds.1
      have hstep : process_data st "foo:|c" dur =
          process_line st1 "foo:|c" dur := by
        simp [process_data, hr, andThen,
          show pyContains "foo:|c" '\n' = false from rfl]
      rw [hstep]
      have hline : process_line st1 "foo:|c" dur =
          andThen (handle_counter st1 "foo" (SVal.num 0) 1)
            (fun st3 => internal_timer st3 "processing_time" dur "controller") :=
        rfl
      rw [hline,
        andThen_counters_preserved _ _
          (fun st2 => (internal_timer_other_fields st2 _ _ _).1)]
      simp only [handle_counter, show pyIntOfSVal (SVal.num 0) = .ok 0 from rfl]
      rw [andThen_counters_preserved _ _
        (fun st2 => (internal_incr_other_fields st2 _ _ _).1)]
      cases hl : dlookup st1.counters "foo" with
      | none =>
          rw [hcnt] at hl
          simp [incr, hcnt, hl, dlookup_dset_self]
      | some v =>
          rw [hcnt] at hl
          simp [incr, hcnt, hl, dlookup_dset_self]

/-- Witness for `c9_empty_value_parses_as_zero` on a fresh node. -/
theorem c9_empty_value_parses_as_zero_witness :
    wfHost (freshState "node") = true ∧
      dlookup (process_data (freshState "node") "foo:|c" 0).1.counters "foo" =
        some ((dlookup (freshState "node").counters "foo").getD 0) :=
  ⟨by decide, c9_empty_value_parses_as_zero (freshState "node") 0 (by decide)⟩

/-- C10: `handle_gauge` is not atomic on error.  For a previously-unseen
key it first stores 0 under the key, and only then inspects the value:
when the value string is not a valid integer, `int(value)` raises
ValueError and the gauge map keeps the key with value 0. -/
theorem c10_gauge_error_leaves_zero (st : CardiffState) (key value : String)
    (h1 : dlookup st.gauges key = none) (h2 : pyInt value = none) :
    (handle_gauge st key (.str value)).2 = some PyErr.valueError ∧
      dlookup (handle_gauge st key (.str value)).1.gauges key = some 0 := by
  have hc : containsKey st.gauges key = false := by
    simp [containsKey, h1]
  constructor <;>
    simp [handle_gauge, hc, signedGauge_never_matches, h2, dlookup_dset_self]

/-- Witness for `c10_gauge_error_leaves_zero`: the fresh key `k` and the
non-numeric value `abc`. -/
theorem c10_gauge_error_leaves_zero_witness :
    dlookup (freshState "node").gauges "k" = none ∧ pyInt "abc" = none ∧
      ((handle_gauge (freshState "node") "k" (.str "abc")).2 =
          some PyErr.valueError ∧
        dlookup (handle_gauge (freshState "node") "k" (.str "abc")).1.gauges
          "k" = some 0) :=
  ⟨rfl, by decide,
    c10_gauge_error_leaves_zero (freshState "node") "k" "abc" rfl (by decide)⟩

/-! ## Snapshot reset -/

theorem foldl_pair_snd {γ α : Type} (g : γ → List (String × α) → String → γ)
    (ks : List String) (o : γ) (d : List (String × α)) :
    (ks.foldl (fun acc k => (g acc.1 acc.2 k, eraseKey acc.2 k)) (o, d)).2 =
      ks.foldl (fun r k => eraseKey r k) d := by
  induction ks generalizing o d with
  | nil => rfl
  | cons k ks ih => exact ih _ _

/-- Erasing every key of an association list, in order, empties it. -/
theorem eraseKey_all {α : Type} (d : List (String × α)) :
    (d.map (fun p => p.1)).foldl (fun r k => eraseKey r k) d = [] := by
  induction d with
  | nil => rfl
  | cons p rest ih =>
      obtain ⟨k, v⟩ := p
      simpa [eraseKey] using ih

theorem snapDict_resid {α : Type} (d : List (String × α)) :
    (snapDict d).2 = [] := by
  unfold snapDict
  rw [foldl_pair_snd (fun o r k => dset o k (dlookup r k))]
  exact eraseKey_all d

theorem snapDictCopy_resid {α : Type} (default : α) (d : List (String × α)) :
    (snapDictCopy default d).2 = [] := by
  unfold snapDictCopy
  rw [foldl_pair_snd (fun o r k => dset o k ((dlookup r k).getD default))]
  exact eraseKey_all d

/-- C4: when `snapshot()` returns (without the KeyError that a state
with a missing controller/host timer scaffold would cause), all four
public maps are empty and the three internal maps are reset to the empty
per-host scaffold `{backend: {host: {}}, controller: {host: {}}}`
produced by `new_int_metric_dict`. -/
theorem c4_snapshot_resets_state (st : CardiffState) (now : Int)
    (durSnap : ℚ) (h : (snapshot st now durSnap).2.2 = none) :
    (snapshot st now durSnap).2.1.counters = [] ∧
    (snapshot st now durSnap).2.1.gauges = [] ∧
    (snapshot st now durSnap).2.1.sets = [] ∧
    (snapshot st now durSnap).2.1.timers = [] ∧
    (snapshot st now durSnap).2.1.internal_counters = newIntMetricDict st.host ∧
    (snapshot st now durSnap).2.1.internal_gauges = newIntMetricDict st.host ∧
    (snapshot st now durSnap).2.1.internal_timers = newIntMetricDict st.host := by
  cases hc : snapDict st.counters with
  | mk cOut cRem =>
  cases hg : snapDict st.gauges with
  | mk gOut gRem =>
  cases hs : snapDictCopy ([] : List (SVal × Nat)) st.sets with
  | mk sOut sRem =>
  cases ht : snapDictCopy ([] : List ℚ) st.timers with
  | mk tOut tRem =>
  have hc2 : cRem = [] := by
    have h2 := snapDict_resid st.counters; rw [hc] at h2; exact h2
  have hg2 : gRem = [] := by
    have h2 := snapDict_resid st.gauges; rw [hg] at h2; exact h2
  have hs2 : sRem = [] := by
    have h2 := snapDictCopy_resid ([] : List (SVal × Nat)) st.sets
    rw [hs] at h2; exact h2
  have ht2 : tRem = [] := by
    have h2 := snapDictCopy_resid ([] : List ℚ) st.timers
    rw [ht] at h2; exact h2
  subst hc2 hg2 hs2 ht2
  unfold snapshot at h ⊢
  simp only [hc, hg, hs, ht] at h ⊢
  cases hr : internal_timer
      { st with counters := [], gauges := [], sets := [], timers := [],
                internal_counters := newIntMetricDict st.host,
                internal_gauges := newIntMetricDict st.host }
      "snapshot_time" durSnap "controller" with
  | mk st2 err =>
  rw [hr] at h
  cases err with
  | some e => exact Option.noConfusion h
  | none =>
      have hf := internal_timer_other_fields
        { st with counters := [], gauges := [], sets := [], timers := [],
                  internal_counters := newIntMetricDict st.host,
                  internal_gauges := newIntMetricDict st.host }
        "snapshot_time" durSnap "controller"
      rw [hr] at hf
      exact ⟨hf.1, hf.2.1, hf.2.2.1, hf.2.2.2.1, hf.2.2.2.2.1,
        hf.2.2.2.2.2.1, rfl⟩

/-- Witness for `c4_snapshot_resets_state` on a fresh node. -/
theorem c4_snapshot_resets_state_witness :
    (snapshot (freshState "node") 0 0).2.2 = none ∧
      ((snapshot (freshState "node") 0 0).2.1.counters = [] ∧
       (snapshot (freshState "node") 0 0).2.1.gauges = [] ∧
       (snapshot (freshState "node") 0 0).2.1.sets = [] ∧
       (snapshot (freshState "node") 0 0).2.1.timers = [] ∧
       (snapshot (freshState "node") 0 0).2.1.internal_counters =
         newIntMetricDict (freshState "node").host ∧
       (snapshot (freshState "node") 0 0).2.1.internal_gauges =
         newIntMetricDict (freshState "node").host ∧
       (snapshot (freshState "node") 0 0).2.1.internal_timers =
         newIntMetricDict (freshState "node").host) :=
  ⟨rfl, c4_snapshot_resets_state (freshState "node") 0 0 rfl⟩

/-! ## Percentile interpolation: ordering facts -/

/-- Uniform closed form of the interpolated percentile value at index
`k`: the convex combination of the sorted values at `⌊k⌋` and `⌊k⌋+1`
(out-of-range reads default to 0 but always carry coefficient 0 in the
uses below). -/
def gInterp (t : List ℚ) (k : ℚ) : ℚ :=
  t.getD ⌊k⌋.toNat 0 * ((⌊k⌋ : ℚ) + 1 - k) +
    t.getD (⌊k⌋ + 1).toNat 0 * (k - (⌊k⌋ : ℚ))

theorem sorted_getD_mono (t : List ℚ) (ht : List.Sorted (· ≤ ·) t)
    {i j : Nat} (hij : i ≤ j) (hj : j < t.length) :
    t.getD i 0 ≤ t.getD j 0 := by
  have hi : i < t.length := lt_of_le_of_lt hij hj
  rw [List.getD_eq_getElem?_getD, List.getD_eq_getElem?_getD,
    List.getElem?_eq_getElem hi, List.getElem?_eq_getElem hj]
  have h2 := @List.Sorted.rel_get_of_le ℚ (· ≤ ·) _ t ht ⟨i, hi⟩ ⟨j, hj⟩ hij
  simpa using h2

theorem percentile_eq_gInterp (t : List ℚ) (p : ℚ)
    (ht : t.isEmpty = false) :
    percentile t p = some (gInterp t (((t.length : ℚ) - 1) * p)) := by
  unfold percentile
  rw [ht]
  simp only [Bool.false_eq_true, if_false]
  generalize ((t.length : ℚ) - 1) * p = K
  by_cases hfc : ⌊K⌋ = ⌈K⌉
  · have hkf : K = (⌊K⌋ : ℚ) :=
      le_antisymm (by rw [hfc]; exact Int.le_ceil K) (Int.floor_le K)
    obtain ⟨m, hm⟩ : ∃ m : ℤ, K = (m : ℚ) := ⟨⌊K⌋, hkf⟩
    subst hm
    rw [if_pos hfc]
    simp [gInterp, Int.floor_intCast]
  · have hc : ⌈K⌉ = ⌊K⌋ + 1 := by
      have h1 : ⌊K⌋ ≤ ⌈K⌉ := Int.floor_le_ceil K
      have h2 : ⌈K⌉ ≤ ⌊K⌋ + 1 := by
        apply Int.ceil_le.mpr
        push_cast
        exact le_of_lt (Int.lt_floor_add_one K)
      omega
    rw [if_neg hfc, hc]
    unfold gInterp
    push_cast
    ring_nf

theorem headD_eq_getD (t : List ℚ) : t.headD 0 = t.getD 0 0 := by
  cases t <;> simp

theorem getLastD_eq_getD (t : List ℚ) :
    t.getLastD 0 = t.getD (t.length - 1) 0 := by
  rw [List.getLastD_eq_getLast?, List.getLast?_eq_getElem?,
    List.getD_eq_getElem?_getD]

theorem gInterp_zero (t : List ℚ) : gInterp t 0 = t.getD 0 0 := by
  simp [gInterp]

theorem gInterp_last (t : List ℚ) (ht : 1 ≤ t.length) :
    gInterp t ((t.length : ℚ) - 1) = t.getD (t.length - 1) 0 := by
  have hcast : ((t.length : ℚ) - 1) = ((t.length - 1 : ℕ) : ℚ) := by
    push_cast [Nat.cast_sub ht]
    ring
  rw [hcast]
  simp [gInterp, Int.floor_natCast]

theorem gInterp_mono (t : List ℚ) (ht : List.Sorted (· ≤ ·) t) (k1 k2 : ℚ)
    (h0 : 0 ≤ k1) (h12 : k1 ≤ k2) (h2 : k2 ≤ (t.length : ℚ) - 1) :
    gInterp t k1 ≤ gInterp t k2 := by
  have h01 : (0 : ℚ) ≤ k2 := le_trans h0 h12
  have hn1 : (1 : ℚ) ≤ (t.length : ℚ) := by linarith
  have hnn : 1 ≤ t.length := by exact_mod_cast hn1
  have hf1 : (0 : ℤ) ≤ ⌊k1⌋ := Int.floor_nonneg.mpr h0
  have hf2n : ⌊k2⌋ ≤ (t.length : ℤ) - 1 := by
    have h3 : ((t.length : ℚ) - 1) = (((t.length : ℤ) - 1 : ℤ) : ℚ) := by
      push_cast; ring
    have h4 := Int.floor_le_floor h2
    rw [h3, Int.floor_intCast] at h4
    exact h4
  have hff : ⌊k1⌋ ≤ ⌊k2⌋ := Int.floor_le_floor h12
  have hfl1 : (⌊k1⌋ : ℚ) ≤ k1 := Int.floor_le k1
  have hfl1b : k1 < (⌊k1⌋ : ℚ) + 1 := Int.lt_floor_add_one k1
  have hfl2 : (⌊k2⌋ : ℚ) ≤ k2 := Int.floor_le k2
  have hfl2b : k2 < (⌊k2⌋ : ℚ) + 1 := Int.lt_floor_add_one k2
  by_cases hfe : ⌊k1⌋ = ⌊k2⌋
  · by_cases hend : ⌊k1⌋ = (t.length : ℤ) - 1
    · have hk1 : ((t.length : ℚ) - 1) ≤ k1 := by
        have : ((⌊k1⌋ : ℤ) : ℚ) ≤ k1 := hfl1
        rw [hend] at this
        push_cast at this
        linarith
      have heq : k1 = k2 := le_antisymm h12 (le_trans h2 hk1)
      rw [heq]
    · have hlt : ⌊k1⌋ < (t.length : ℤ) - 1 :=
        lt_of_le_of_ne (hfe ▸ hf2n) hend
      have hib : (⌊k1⌋ + 1).toNat < t.length := by omega
      have hab : t.getD ⌊k1⌋.toNat 0 ≤ t.getD (⌊k1⌋ + 1).toNat 0 :=
        sorted_getD_mono t ht (by omega) hib
      unfold gInterp
      rw [← hfe]
      nlinarith [mul_nonneg (sub_nonneg.mpr h12) (sub_nonneg.mpr hab)]
  · have hlt : ⌊k1⌋ < ⌊k2⌋ := lt_of_le_of_ne hff hfe
    have hi2 : ⌊k2⌋.toNat < t.length := by omega
    have hi1b : (⌊k1⌋ + 1).toNat < t.length := by omega
    have hab1 : t.getD ⌊k1⌋.toNat 0 ≤ t.getD (⌊k1⌋ + 1).toNat 0 :=
      sorted_getD_mono t ht (by omega) hi1b
    have hb1a2 : t.getD (⌊k1⌋ + 1).toNat 0 ≤ t.getD ⌊k2⌋.toNat 0 :=
      sorted_getD_mono t ht (by omega) hi2
    have step1 : gInterp t k1 ≤ t.getD (⌊k1⌋ + 1).toNat 0 := by
      unfold gInterp
      nlinarith [mul_nonneg (sub_nonneg.mpr hab1)
        (by linarith : (0 : ℚ) ≤ (⌊k1⌋ : ℚ) + 1 - k1)]
    have step3 : t.getD ⌊k2⌋.toNat 0 ≤ gInterp t k2 := by
      by_cases hend : ⌊k2⌋ = (t.length : ℤ) - 1
      · have hk2top : k2 ≤ (⌊k2⌋ : ℚ) := by
          rw [hend]; push_cast; linarith
        have hfk : (⌊k2⌋ : ℚ) = k2 := le_antisymm hfl2 hk2top
        unfold gInterp
        rw [hfk]
        ring_nf
        simp
      · have hi2b : (⌊k2⌋ + 1).toNat < t.length := by omega
        have hab2 : t.getD ⌊k2⌋.toNat 0 ≤ t.getD (⌊k2⌋ + 1).toNat 0 :=
          sorted_getD_mono t ht (by omega) hi2b
        unfold gInterp
        nlinarith [mul_nonneg (sub_nonneg.mpr hab2)
          (by linarith : (0 : ℚ) ≤ k2 - (⌊k2⌋ : ℚ))]
    exact le_trans (le_trans step1 hb1a2) step3

/-- C8: for every non-empty timer sample list, the statistics derived by
`calc_timer_values` from the sorted values satisfy
`min ≤ median ≤ p90 ≤ p95 ≤ max` — each percentile is the
linearly-interpolated value at index `k = (n-1)·p`, which is monotone in
`p` over a sorted list — and `mean = total/count`. -/
theorem c8_timer_stats_ordered (interval : Int) (timer : List ℚ)
    (h : timer ≠ []) :
    (calc_timer_values interval timer).tmin ≤
        (calc_timer_values interval timer).med ∧
      (calc_timer_values interval timer).med ≤
        (calc_timer_values interval timer).p90 ∧
      (calc_timer_values interval timer).p90 ≤
        (calc_timer_values interval timer).p95 ∧
      (calc_timer_values interval timer).p95 ≤
        (calc_timer_values interval timer).tmax ∧
      (calc_timer_values interval timer).mean =
        (calc_timer_values interval timer).total /
          ((calc_timer_values interval timer).count : ℚ) := by
  have hemp : timer.isEmpty = false := by
    simpa [List.isEmpty_iff] using h
  have hsort : List.Sorted (· ≤ ·) timer.mergeSort :=
    List.sorted_mergeSort' timer
  have hlen : timer.mergeSort.length = timer.length :=
    (List.mergeSort_perm timer _).length_eq
  have hn1 : 1 ≤ timer.mergeSort.length := by
    rw [hlen]; exact List.length_pos.mpr h
  have htne : timer.mergeSort ≠ [] := by
    intro he; rw [he] at hn1; simp at hn1
  have hne2 : timer.mergeSort.isEmpty = false := by
    simpa [List.isEmpty_iff] using htne
  have hq1 : (1 : ℚ) ≤ (timer.mergeSort.length : ℚ) := by exact_mod_cast hn1
  simp only [calc_timer_values, hemp, Bool.false_eq_true, if_false, median]
  rw [percentile_eq_gInterp _ _ hne2, percentile_eq_gInterp _ _ hne2,
    percentile_eq_gInterp _ _ hne2]
  simp only [Option.getD_some]
  rw [headD_eq_getD, getLastD_eq_getD, ← gInterp_zero, ← gInterp_last _ hn1]
  refine ⟨?_, ?_, ?_, ?_, trivial⟩
  · exact gInterp_mono _ hsort _ _ le_rfl (by nlinarith) (by nlinarith)
  · exact gInterp_mono _ hsort _ _ (by nlinarith) (by nlinarith) (by nlinarith)
  · exact gInterp_mono _ hsort _ _ (by nlinarith) (by nlinarith) (by nlinarith)
  · exact gInterp_mono _ hsort _ _ (by nlinarith) (by nlinarith) (by nlinarith)

/-- Witness for `c8_timer_stats_ordered` at the sample [3, 1, 2]. -/
theorem c8_timer_stats_ordered_witness :
    ([3, 1, 2] : List ℚ) ≠ [] ∧
      ((calc_timer_values 300 [3, 1, 2]).tmin ≤
          (calc_timer_values 300 [3, 1, 2]).med ∧
        (calc_timer_values 300 [3, 1, 2]).med ≤
          (calc_timer_values 300 [3, 1, 2]).p90 ∧
        (calc_timer_values 300 [3, 1, 2]).p90 ≤
          (calc_timer_values 300 [3, 1, 2]).p95 ∧
        (calc_timer_values 300 [3, 1, 2]).p95 ≤
          (calc_timer_values 300 [3, 1, 2]).tmax ∧
        (calc_timer_values 300 [3, 1, 2]).mean =
          (calc_timer_values 300 [3, 1, 2]).total /
            ((calc_timer_values 300 [3, 1, 2]).count : ℚ)) :=
  ⟨by simp, c8_timer_stats_ordered 300 [3, 1, 2] (by simp)⟩
